import Mathlib

/-!
Verification of the table-text-extractor repository.

This file gives a shallow embedding of the row-reconstruction code in
`ocr_processor.py` (class `TextExtractor`) and of the table-detection
state machine in `table_processor.py` (class `TableExtractor`), and
proves the specified properties about them.

Python floats are modelled as rationals (`ℚ`); the algorithms only add,
divide by a positive integer length, compare and take absolute values, so
the rational model is exact on every input it is run on here.  Python
runtime errors (`IndexError` from indexing an empty list, and
`ZeroDivisionError` from `sum(xs)/len(xs)` on an empty `xs`) are modelled
with an `Except` result.
-/

/-- A Python runtime error that `group_text_into_rows` can raise. -/
inductive PyError where
  | indexError
  | zeroDivisionError
deriving DecidableEq, Repr

/-- Model of a cv2 image on the OCR side: an abstract pixel content tag
together with the log of `cv2.line` drawing operations applied to it
(start point, end point, BGR color, thickness).  `cv2` itself is an
external library; only the fact that drawing returns a new image value is
relevant here. -/
structure OcrImage where
  content : ℕ
  drawnLines : List ((ℤ × ℤ) × (ℤ × ℤ) × (ℕ × ℕ × ℕ) × ℕ)
deriving DecidableEq, Repr

/-- Model of `cv2.line`: returns the image with the segment recorded. -/
def cv2Line (img : OcrImage) (s e : ℤ × ℤ) (color : ℕ × ℕ × ℕ)
    (thickness : ℕ) : OcrImage :=
  { img with drawnLines := img.drawnLines ++ [(s, e, color, thickness)] }

/-- Python `int()` on a rational: truncation toward zero. -/
def pyInt (q : ℚ) : ℤ := q.num.tdiv q.den

/-- The mutable state of an `ocr_processor.TextExtractor` instance after
`extract_text` has run: the three parallel result lists and the source
image (`self.bounding_boxes`, `self.detected_texts`,
`self.confidence_scores`, `self.source_image`). -/
structure TextExtractor where
  bounding_boxes : List (List (ℚ × ℚ))
  detected_texts : List String
  confidence_scores : List ℚ
  source_image : OcrImage
deriving Repr

/-- One entry of the list built by `organize_text_data`: a dict with the
`coordinates` and `text` keys. -/
structure RawItem where
  coordinates : List (ℚ × ℚ)
  text : String
deriving DecidableEq, Repr

/-- A `RawItem` after the centroid loop of `group_text_into_rows` has
added the `avg_y` and `avg_x` keys. -/
structure MeasuredItem where
  coordinates : List (ℚ × ℚ)
  text : String
  avg_y : ℚ
  avg_x : ℚ
deriving DecidableEq, Repr

instance : Inhabited MeasuredItem := ⟨⟨[], "", 0, 0⟩⟩

namespace TextExtractor

/-- `TextExtractor.organize_text_data`: pairs each bounding box with the
recognized text at the same index.  The Python loop runs over
`range(len(self.bounding_boxes))` and indexes `self.detected_texts[i]`,
so it raises `IndexError` when the text list is shorter than the box
list; otherwise it truncates nothing (the box list is the shorter or
equal one, and `zip` keeps exactly its length). -/
def organize_text_data (self : TextExtractor) :
    Except PyError (List RawItem) :=
  if self.detected_texts.length < self.bounding_boxes.length then
    .error .indexError
  else
    .ok ((self.bounding_boxes.zip self.detected_texts).map
      (fun p => ⟨p.1, p.2⟩))

end TextExtractor

/-- The centroid loop of `group_text_into_rows` (lines 112–116): for each
item, `avg_y = sum(y_coords)/len(y_coords)` and likewise for `avg_x`.
Python raises `ZeroDivisionError` at the first item whose coordinate
list is empty. -/
def withAverages : List RawItem → Except PyError (List MeasuredItem)
  | [] => .ok []
  | it :: rest =>
    if it.coordinates.length = 0 then .error .zeroDivisionError
    else
      match withAverages rest with
      | .error e => .error e
      | .ok rest' =>
        .ok (⟨it.coordinates, it.text,
              (it.coordinates.map Prod.snd).sum / it.coordinates.length,
              (it.coordinates.map Prod.fst).sum / it.coordinates.length⟩
             :: rest')

/-- CPython `list.sort(key=...)` is a stable sort; on the same total
preorder every stable sort yields the same list, so insertion sort is an
exact model.  This is the vertical sort `ocr_results.sort(key=avg_y)`. -/
def sortedByY (l : List MeasuredItem) : List MeasuredItem :=
  l.insertionSort (fun a b => a.avg_y ≤ b.avg_y)

/-- The horizontal in-row sort `current_row.sort(key=avg_x)` (stable). -/
def sortRowX (l : List MeasuredItem) : List MeasuredItem :=
  l.insertionSort (fun a b => a.avg_x ≤ b.avg_x)

/-- `row_threshold = 10` (line 125). -/
def rowThreshold : ℚ := 10

/-- Closing a row: sort it by `avg_x` and keep the `text` fields. -/
def emitRow (c : List MeasuredItem) : List String :=
  (sortRowX c).map MeasuredItem.text

/-- One iteration of the grouping loop (lines 127–135).  The accumulator
is `(rows, current_row, current_avg_y)`. -/
def scanStep (acc : List (List String) × List MeasuredItem × ℚ)
    (item : MeasuredItem) : List (List String) × List MeasuredItem × ℚ :=
  if |item.avg_y - acc.2.2| < rowThreshold then
    (acc.1, acc.2.1 ++ [item], acc.2.2)
  else
    (acc.1 ++ [emitRow acc.2.1], [item], item.avg_y)

namespace TextExtractor

/-- `TextExtractor.group_text_into_rows` (lines 103–142), exactly as the
Python executes: organize, add centroids, sort by `avg_y`, read
`ocr_results[0]` (an `IndexError` on an empty list), scan all items with
the fixed-anchor grouping loop, and append the final accumulator if it
is non-empty. -/
def group_text_into_rows (self : TextExtractor) :
    Except PyError (List (List String)) :=
  match self.organize_text_data with
  | .error e => .error e
  | .ok raw =>
    match withAverages raw with
    | .error e => .error e
    | .ok measured =>
      let sorted := sortedByY measured
      match sorted.head? with
      | none => .error .indexError
      | some first =>
        let final := sorted.foldl scanStep ([], [], first.avg_y)
        if final.2.1.isEmpty then .ok final.1
        else .ok (final.1 ++ [emitRow final.2.1])

end TextExtractor

/-- Specification-side view of one grouping-loop iteration: identical to
`scanStep` except that the closed rows are kept as item lists (clusters in
scan order) instead of being sorted and projected to text. -/
def clusterStep (acc : List (List MeasuredItem) × List MeasuredItem × ℚ)
    (item : MeasuredItem) :
    List (List MeasuredItem) × List MeasuredItem × ℚ :=
  if |item.avg_y - acc.2.2| < rowThreshold then
    (acc.1, acc.2.1 ++ [item], acc.2.2)
  else
    (acc.1 ++ [acc.2.1], [item], item.avg_y)

/-- The clusters (rows as item lists, in scan order) that the grouping
loop produces from `items` with initial anchor `a`. -/
def clustersFrom (items : List MeasuredItem) (a : ℚ) :
    List (List MeasuredItem) :=
  let final := items.foldl clusterStep ([], [], a)
  if final.2.1.isEmpty then final.1 else final.1 ++ [final.2.1]

/-- The measured item list the pipeline computes for a state (empty when
the pipeline raises an error). -/
def measuredOf (self : TextExtractor) : List MeasuredItem :=
  match self.organize_text_data with
  | .error _ => []
  | .ok raw =>
    match withAverages raw with
    | .error _ => []
    | .ok measured => measured

/-- The vertically sorted item list of a state. -/
def sortedOf (self : TextExtractor) : List MeasuredItem :=
  sortedByY (measuredOf self)

/-- The row clusters of a state, each in scan order (so its head is the
first item assigned to that row, whose `avg_y` is the row's anchor). -/
def theClusters (self : TextExtractor) : List (List MeasuredItem) :=
  match (sortedOf self).head? with
  | none => []
  | some first => clustersFrom (sortedOf self) first.avg_y

/-- The anchor of a cluster: the `avg_y` of its first item in scan
order. -/
def anchorY (c : List MeasuredItem) : ℚ := c.headI.avg_y

namespace TextExtractor

/-- `TextExtractor.draw_bounding_box` (lines 52–69): casts the box's
points to integers, then draws the cyclic polygon edges on
`self.source_image` with `cv2.line`, storing the result back. -/
def draw_bounding_box (self : TextExtractor) (bbox : List (ℚ × ℚ))
    (color : ℕ × ℕ × ℕ := (0, 255, 0)) (thickness : ℕ := 2) :
    TextExtractor :=
  let pts := bbox.map (fun p => (pyInt p.1, pyInt p.2))
  let img := (List.range pts.length).foldl
    (fun img i =>
      cv2Line img (pts.getD i (0, 0)) (pts.getD ((i + 1) % pts.length) (0, 0))
        color thickness)
    self.source_image
  { self with source_image := img }

/-- `TextExtractor.annotate_image` (lines 71–79): draws every stored
bounding box on the source image. -/
def annotate_image (self : TextExtractor) : TextExtractor :=
  self.bounding_boxes.foldl (fun s bbox => s.draw_bounding_box bbox) self

end TextExtractor

/-! ### Embedding of `table_processor.TableExtractor` -/

/-- Model of a cv2 image on the table-detection side: an abstract pixel
content tag plus the log of `cv2.rectangle` drawing operations applied
to it (two corner points, BGR color, thickness). -/
structure TableImage where
  content : ℕ
  drawnRects : List ((ℤ × ℤ) × (ℤ × ℤ) × (ℕ × ℕ × ℕ) × ℕ)
deriving DecidableEq, Repr

/-- Model of `cv2.rectangle`: returns the image with the rectangle
recorded. -/
def cv2Rectangle (img : TableImage) (p1 p2 : ℤ × ℤ) (color : ℕ × ℕ × ℕ)
    (thickness : ℕ) : TableImage :=
  { img with drawnRects := img.drawnRects ++ [(p1, p2, color, thickness)] }

/-- Model of the numpy slice `image[y_min:y_max, x_min:x_max]` (line 79):
a view of the source image — note the source is the image *after* the
rectangles drawn so far. -/
structure CroppedImage where
  source : TableImage
  yLo : ℤ
  yHi : ℤ
  xLo : ℤ
  xHi : ℤ
deriving DecidableEq, Repr

/-- One YOLO prediction result: its `boxes`, each carrying an `xyxy`
coordinate quadruple `(x_min, y_min, x_max, y_max)` of floats. -/
structure Detection where
  boxes : List (ℚ × ℚ × ℚ × ℚ)
deriving DecidableEq, Repr

/-- The external collaborators of `TableExtractor`: the filesystem
(`os.path.isfile`), image loading (`cv2.imread`) and the YOLO model
(`self.detector.predict`).  All are host-controlled and outside the
repository; they are parameters of the embedding. -/
structure DetectorEnv where
  isfile : String → Bool
  imread : String → TableImage
  predict : TableImage → List Detection

/-- The error `load_and_predict` can raise (`FileNotFoundError`,
line 59). -/
inductive TableError where
  | fileNotFound (path : String)
deriving DecidableEq, Repr

/-- The mutable state of a `table_processor.TableExtractor` instance:
the accumulated `self.detected_tables` list (initialized to `[]` in
`__init__`) and `self.source_image`. -/
structure TableExtractor where
  detected_tables : List CroppedImage
  source_image : TableImage
deriving DecidableEq, Repr

namespace TableExtractor

/-- `TableExtractor.load_and_predict` (lines 51–64): raises
`FileNotFoundError` if the path does not exist, otherwise loads the
image, runs the detector, stores the image in `self.source_image` and
returns the detections. -/
def load_and_predict (self : TableExtractor) (env : DetectorEnv)
    (image_path : String) :
    Except TableError (List Detection × TableExtractor) :=
  if env.isfile image_path = false then
    .error (.fileNotFound image_path)
  else
    let input_image := env.imread image_path
    .ok (env.predict input_image, { self with source_image := input_image })

/-- Body of the inner loop of `TableExtractor.annotate_image`
(lines 73–80): cast the box corners to int, draw the rectangle on
`self.source_image`, then crop the (freshly annotated) source image and
append the crop to `self.detected_tables`. -/
def processBox (self : TableExtractor) (box : ℚ × ℚ × ℚ × ℚ) :
    TableExtractor :=
  let xLo := pyInt box.1
  let yLo := pyInt box.2.1
  let xHi := pyInt box.2.2.1
  let yHi := pyInt box.2.2.2
  let img := cv2Rectangle self.source_image (xLo, yLo) (xHi, yHi)
    (0, 255, 0) 2
  { detected_tables := self.detected_tables ++ [⟨img, yLo, yHi, xLo, xHi⟩],
    source_image := img }

/-- `TableExtractor.annotate_image` (lines 66–80): the nested loop over
detections and their boxes. -/
def annotate_image (self : TableExtractor) (detections : List Detection) :
    TableExtractor :=
  detections.foldl (fun s d => d.boxes.foldl processBox s) self

/-- `TableExtractor.save_processed_image` (lines 82–88) only performs
file I/O (`cv2.imwrite`); it returns the `(path, image)` pair that would
be written and changes no instance state. -/
def save_processed_image (self : TableExtractor)
    (save_path : String := "processed_output.png") : String × TableImage :=
  (save_path, self.source_image)

/-- `TableExtractor.execute` (lines 90–100): predict, annotate (which
also accumulates the crops), save the debug image, and return
`self.detected_tables`. -/
def execute (self : TableExtractor) (env : DetectorEnv)
    (img_path : String) :
    Except TableError (List CroppedImage × TableExtractor) :=
  match self.load_and_predict env img_path with
  | .error e => .error e
  | .ok (results, s1) =>
    let s2 := s1.annotate_image results
    .ok (s2.detected_tables, s2)

/-- `TableExtractor.reset` (lines 102–106): `self.detected_tables.clear()`. -/
def reset (self : TableExtractor) : TableExtractor :=
  { self with detected_tables := [] }

end TableExtractor

/-! ### Concrete states used in the theorems below -/

/-- A blank OCR-side image. -/
def img0 : OcrImage := ⟨0, []⟩

/-- A degenerate 4-point quadrilateral whose four vertices all equal
`(x, y)`; its centroid is exactly `(x, y)`.  The spec explicitly admits
degenerate quadrilaterals (§4.1, failure modes). -/
def ptQuad (x y : ℚ) : List (ℚ × ℚ) :=
  [(x, y), (x, y), (x, y), (x, y)]

/-- The state after a recognition call that found no text items. -/
def emptyExtractor : TextExtractor := ⟨[], [], [], img0⟩

/-- Two items `"A"` (centroid `(0, y1)`) and `"B"` (centroid `(1, y2)`). -/
def pairState (y1 y2 : ℚ) : TextExtractor :=
  ⟨[ptQuad 0 y1, ptQuad 1 y2], ["A", "B"], [1, 1], img0⟩

/-- A state holding one malformed item whose quadrilateral has only
three points. -/
def threePointState : TextExtractor :=
  ⟨[[(0, 0), (3, 0), (0, 3)]], ["X"], [9 / 10], img0⟩

/-- A state holding one item whose coordinate list is empty. -/
def emptyQuadState : TextExtractor :=
  ⟨[[]], ["X"], [9 / 10], img0⟩

/-- Scenario C of the spec: three items on one visual row with
x-centroids 30, 10, 20 (texts `"c"`, `"a"`, `"b"` respectively). -/
def scenarioCState : TextExtractor :=
  ⟨[ptQuad 30 0, ptQuad 10 1, ptQuad 20 2], ["c", "a", "b"], [1, 1, 1], img0⟩

/-- A concrete detector environment: every path exists, every image is
blank, and the model reports one table with corners `(0, 0)`–`(5, 5)`. -/
def envA : DetectorEnv :=
  ⟨fun _ => true, fun _ => ⟨0, []⟩, fun _ => [⟨[(0, 0, 5, 5)]⟩]⟩

/-- A detector state carrying one stale crop from an earlier call. -/
def tableS : TableExtractor := ⟨[⟨⟨3, []⟩, 0, 1, 0, 1⟩], ⟨3, []⟩⟩

/-- A second detector state with different stale content. -/
def tableT : TableExtractor := ⟨[], ⟨7, []⟩⟩

/-! ### Relating the executable scan to the cluster view -/

lemma scan_foldl_eq_cluster (items : List MeasuredItem) :
    ∀ (cs : List (List MeasuredItem)) (cur : List MeasuredItem) (a : ℚ),
      items.foldl scanStep (cs.map emitRow, cur, a) =
        ((items.foldl clusterStep (cs, cur, a)).1.map emitRow,
         (items.foldl clusterStep (cs, cur, a)).2.1,
         (items.foldl clusterStep (cs, cur, a)).2.2) := by
  induction items with
  | nil => intro cs cur a; rfl
  | cons it rest ih =>
    intro cs cur a
    simp only [List.foldl_cons, scanStep, clusterStep]
    by_cases h : |it.avg_y - a| < rowThreshold
    · simp only [h, if_true, if_pos]
      exact ih cs (cur ++ [it]) a
    · simp only [h, if_false, if_neg, not_false_iff]
      have := ih (cs ++ [cur]) [it] it.avg_y
      simpa [List.map_append] using this

lemma cluster_foldl_flatten (items : List MeasuredItem) :
    ∀ (cs : List (List MeasuredItem)) (cur : List MeasuredItem) (a : ℚ),
      (items.foldl clusterStep (cs, cur, a)).1.flatten ++
          (items.foldl clusterStep (cs, cur, a)).2.1 =
        cs.flatten ++ cur ++ items := by
  induction items with
  | nil => intro cs cur a; simp
  | cons it rest ih =>
    intro cs cur a
    simp only [List.foldl_cons, clusterStep]
    by_cases h : |it.avg_y - a| < rowThreshold
    · simp only [h, if_true, if_pos]
      rw [ih cs (cur ++ [it]) a]
      simp
    · simp only [h, if_false, if_neg, not_false_iff]
      rw [ih (cs ++ [cur]) [it] it.avg_y]
      simp

lemma cluster_foldl_cur_ne_nil (items : List MeasuredItem) :
    ∀ (cs : List (List MeasuredItem)) (cur : List MeasuredItem) (a : ℚ),
      cur ≠ [] → (items.foldl clusterStep (cs, cur, a)).2.1 ≠ [] := by
  induction items with
  | nil => intro cs cur a h; exact h
  | cons it rest ih =>
    intro cs cur a h
    simp only [List.foldl_cons, clusterStep]
    by_cases hc : |it.avg_y - a| < rowThreshold
    · simp only [hc, if_true, if_pos]
      exact ih cs (cur ++ [it]) a (by simp)
    · simp only [hc, if_false, if_neg, not_false_iff]
      exact ih (cs ++ [cur]) [it] it.avg_y (by simp)

lemma clustersFrom_flatten (items : List MeasuredItem) (a : ℚ) :
    (clustersFrom items a).flatten = items := by
  unfold clustersFrom
  have h := cluster_foldl_flatten items [] [] a
  by_cases hc : (items.foldl clusterStep ([], [], a)).2.1.isEmpty
  · simp only [hc, if_true, if_pos]
    have : (items.foldl clusterStep ([], [], a)).2.1 = [] :=
      List.isEmpty_iff.mp hc
    simpa [this] using h
  · simp only [hc, if_false, if_neg, not_false_iff]
    simpa [List.flatten_append] using h

lemma headI_append_of_ne_nil {l : List MeasuredItem} (h : l ≠ [])
    (l' : List MeasuredItem) : (l ++ l').headI = l.headI := by
  cases l with
  | nil => exact absurd rfl h
  | cons x xs => rfl

/-- Main invariant of the grouping scan on a vertically sorted list: the
anchors of the closed clusters followed by the current anchor form a
`≤`-chain, the current accumulator stays non-empty, and the current
anchor is the `avg_y` of the first item of the current accumulator. -/
lemma cluster_foldl_anchor_chain (items : List MeasuredItem)
    (hsorted : items.Pairwise (fun a b => a.avg_y ≤ b.avg_y)) :
    ∀ (cs : List (List MeasuredItem)) (cur : List MeasuredItem) (a : ℚ),
      List.Chain' (· ≤ ·) (cs.map anchorY ++ [a]) →
      (∀ it ∈ items, a ≤ it.avg_y) →
      cur ≠ [] → anchorY cur = a →
      List.Chain' (· ≤ ·)
          ((items.foldl clusterStep (cs, cur, a)).1.map anchorY ++
            [(items.foldl clusterStep (cs, cur, a)).2.2]) ∧
        (items.foldl clusterStep (cs, cur, a)).2.1 ≠ [] ∧
        anchorY (items.foldl clusterStep (cs, cur, a)).2.1 =
          (items.foldl clusterStep (cs, cur, a)).2.2 := by
  induction items with
  | nil =>
    intro cs cur a hchain _ hcur hanchor
    exact ⟨hchain, hcur, hanchor⟩
  | cons it rest ih =>
    intro cs cur a hchain hge hcur hanchor
    have hsorted' : rest.Pairwise (fun a b => a.avg_y ≤ b.avg_y) :=
      hsorted.of_cons
    have hhead : ∀ x ∈ rest, it.avg_y ≤ x.avg_y :=
      fun x hx => List.rel_of_pairwise_cons hsorted hx
    simp only [List.foldl_cons, clusterStep]
    by_cases h : |it.avg_y - a| < rowThreshold
    · simp only [h, if_true, if_pos]
      refine ih hsorted' cs (cur ++ [it]) a hchain
        (fun x hx => hge x (List.mem_cons_of_mem _ hx)) (by simp) ?_
      unfold anchorY
      rw [headI_append_of_ne_nil hcur]
      exact hanchor
    · simp only [h, if_false, if_neg, not_false_iff]
      refine ih hsorted' (cs ++ [cur]) [it] it.avg_y ?_ hhead (by simp) rfl
      have haleit : a ≤ it.avg_y := hge it (List.mem_cons_self it rest)
      rw [List.map_append]
      have h1 : List.Chain' (· ≤ ·) ((cs.map anchorY ++ [anchorY cur]) ++
          [it.avg_y]) := by
        apply List.Chain'.append
        · rw [hanchor]; exact hchain
        · exact List.chain'_singleton _
        · intro x hx y hy
          rw [List.getLast?_concat] at hx
          simp only [List.head?_cons, Option.mem_def, Option.some.injEq] at hx hy
          rw [← hx, ← hy, hanchor]
          exact haleit
      simpa using h1

instance : IsTotal MeasuredItem (fun a b => a.avg_y ≤ b.avg_y) :=
  ⟨fun a b => le_total a.avg_y b.avg_y⟩

instance : IsTrans MeasuredItem (fun a b => a.avg_y ≤ b.avg_y) :=
  ⟨fun _ _ _ hab hbc => le_trans hab hbc⟩

instance : IsTotal MeasuredItem (fun a b => a.avg_x ≤ b.avg_x) :=
  ⟨fun a b => le_total a.avg_x b.avg_x⟩

instance : IsTrans MeasuredItem (fun a b => a.avg_x ≤ b.avg_x) :=
  ⟨fun _ _ _ hab hbc => le_trans hab hbc⟩

lemma sortedByY_pairwise (l : List MeasuredItem) :
    (sortedByY l).Pairwise (fun a b => a.avg_y ≤ b.avg_y) :=
  List.sorted_insertionSort _ l

lemma sortRowX_pairwise (l : List MeasuredItem) :
    (sortRowX l).Pairwise (fun a b => a.avg_x ≤ b.avg_x) :=
  List.sorted_insertionSort _ l

/-- On a vertically sorted non-empty list, with the anchor initialized to
the first item's `avg_y`, the cluster anchors are non-decreasing. -/
lemma clustersFrom_anchor_chain (first : MeasuredItem)
    (tail : List MeasuredItem)
    (hsorted : (first :: tail).Pairwise (fun a b => a.avg_y ≤ b.avg_y)) :
    List.Chain' (· ≤ ·)
      ((clustersFrom (first :: tail) first.avg_y).map anchorY) := by
  unfold clustersFrom
  have hfirst : (first :: tail).foldl clusterStep ([], [], first.avg_y) =
      tail.foldl clusterStep ([], [first], first.avg_y) := by
    simp only [List.foldl_cons, clusterStep, sub_self, abs_zero]
    rw [if_pos (by norm_num [rowThreshold])]
    rfl
  rw [hfirst]
  have hmain := cluster_foldl_anchor_chain tail hsorted.of_cons
    [] [first] first.avg_y (by simp)
    (fun x hx => List.rel_of_pairwise_cons hsorted hx) (by simp) rfl
  obtain ⟨hchain, hne, hanchor⟩ := hmain
  have hc : (tail.foldl clusterStep ([], [first], first.avg_y)).2.1.isEmpty
      = false := by
    cases hx : (tail.foldl clusterStep ([], [first], first.avg_y)).2.1 with
    | nil => exact absurd hx hne
    | cons y ys => simp [hx]
  simp only [hc, Bool.false_eq_true, if_false, List.map_append,
    List.map_cons, List.map_nil]
  rw [hanchor]
  simpa using hchain

/-- When `group_text_into_rows` succeeds, the returned rows are exactly
the clusters of the state, each closed with `emitRow`. -/
lemma group_ok_eq_theClusters (self : TextExtractor)
    (rows : List (List String))
    (h : self.group_text_into_rows = .ok rows) :
    rows = (theClusters self).map emitRow := by
  unfold TextExtractor.group_text_into_rows at h
  unfold theClusters sortedOf measuredOf
  cases horg : self.organize_text_data with
  | error e => rw [horg] at h; exact absurd h (by simp)
  | ok raw =>
    rw [horg] at h
    dsimp only at h ⊢
    cases havg : withAverages raw with
    | error e => rw [havg] at h; exact absurd h (by simp)
    | ok measured =>
      rw [havg] at h
      dsimp only at h ⊢
      cases hhead : (sortedByY measured).head? with
      | none => rw [hhead] at h; exact absurd h (by simp)
      | some first =>
        rw [hhead] at h
        dsimp only at h ⊢
        have hscan := scan_foldl_eq_cluster (sortedByY measured) [] []
          first.avg_y
        simp only [List.map_nil] at hscan
        rw [hscan] at h
        unfold clustersFrom
        by_cases hc : ((sortedByY measured).foldl clusterStep
            ([], [], first.avg_y)).2.1.isEmpty
        · rw [if_pos hc] at h
          rw [if_pos hc]
          exact (Except.ok.injEq _ _ ▸ h).symm
        · rw [if_neg hc] at h
          rw [if_neg hc]
          simp only [Except.ok.injEq] at h
          rw [← h, List.map_append, List.map_cons, List.map_nil]

/-- The cluster anchors of any state are non-decreasing. -/
lemma theClusters_anchor_chain (self : TextExtractor) :
    List.Chain' (· ≤ ·) ((theClusters self).map anchorY) := by
  unfold theClusters
  cases hhead : (sortedOf self).head? with
  | none => simp
  | some first =>
    obtain ⟨tail, htail⟩ := List.head?_eq_some_iff.mp hhead
    have hpair : (sortedOf self).Pairwise (fun a b => a.avg_y ≤ b.avg_y) :=
      sortedByY_pairwise (measuredOf self)
    rw [htail] at hpair ⊢
    exact clustersFrom_anchor_chain first tail hpair

/-- The centroid loop preserves each item's text. -/
lemma withAverages_ok_texts :
    ∀ (l : List RawItem) (m : List MeasuredItem), withAverages l = .ok m →
      m.map MeasuredItem.text = l.map RawItem.text := by
  intro l
  induction l with
  | nil => intro m h; simp only [withAverages, Except.ok.injEq] at h
           rw [← h]; rfl
  | cons it rest ih =>
    intro m h
    simp only [withAverages] at h
    by_cases hlen : it.coordinates.length = 0
    · rw [if_pos hlen] at h; exact absurd h (by simp)
    · rw [if_neg hlen] at h
      cases hrest : withAverages rest with
      | error e => rw [hrest] at h; exact absurd h (by simp)
      | ok rest' =>
        rw [hrest] at h
        simp only [Except.ok.injEq] at h
        rw [← h, List.map_cons, List.map_cons, ih rest' hrest]

/-- The centroid loop succeeds exactly when every coordinate list is
non-empty, and then it does not reorder items. -/
lemma withAverages_ok_of_ne_nil :
    ∀ (l : List RawItem), (∀ it ∈ l, it.coordinates ≠ []) →
      ∃ m, withAverages l = .ok m := by
  intro l
  induction l with
  | nil => intro _; exact ⟨[], rfl⟩
  | cons it rest ih =>
    intro hne
    obtain ⟨m', hm'⟩ := ih (fun x hx => hne x (List.mem_cons_of_mem _ hx))
    have hlen : ¬ it.coordinates.length = 0 := by
      simpa using hne it (List.mem_cons_self it rest)
    refine ⟨⟨it.coordinates, it.text,
      (it.coordinates.map Prod.snd).sum / it.coordinates.length,
      (it.coordinates.map Prod.fst).sum / it.coordinates.length⟩ :: m', ?_⟩
    simp only [withAverages, if_neg hlen, hm']

/-- Characterization of a successful `organize_text_data`. -/
lemma organize_ok_iff (self : TextExtractor) (raw : List RawItem) :
    self.organize_text_data = .ok raw ↔
      ¬ self.detected_texts.length < self.bounding_boxes.length ∧
        raw = (self.bounding_boxes.zip self.detected_texts).map
          (fun p => ⟨p.1, p.2⟩) := by
  unfold TextExtractor.organize_text_data
  by_cases h : self.detected_texts.length < self.bounding_boxes.length
  · simp [h]
  · simp [h, eq_comm]

/-- The clusters of a state partition its sorted item list exactly. -/
lemma theClusters_flatten (self : TextExtractor) :
    (theClusters self).flatten = sortedOf self := by
  unfold theClusters
  cases hhead : (sortedOf self).head? with
  | none =>
    have : sortedOf self = [] := by
      cases hx : sortedOf self with
      | nil => rfl
      | cons y ys => rw [hx] at hhead; simp at hhead
    simp [this]
  | some first => exact clustersFrom_flatten _ _

lemma emitRow_perm (c : List MeasuredItem) :
    (emitRow c).Perm (c.map MeasuredItem.text) :=
  (List.perm_insertionSort _ c).map _

lemma flatten_map_emitRow_perm (cs : List (List MeasuredItem)) :
    ((cs.map emitRow).flatten).Perm
      ((cs.map (fun c => c.map MeasuredItem.text)).flatten) := by
  induction cs with
  | nil => exact List.Perm.refl _
  | cons c rest ih =>
    simp only [List.map_cons, List.flatten_cons]
    exact (emitRow_perm c).append ih

/-- `group_text_into_rows` reads only the `bounding_boxes` and
`detected_texts` fields. -/
lemma group_text_into_rows_congr (s1 s2 : TextExtractor)
    (hb : s1.bounding_boxes = s2.bounding_boxes)
    (ht : s1.detected_texts = s2.detected_texts) :
    s1.group_text_into_rows = s2.group_text_into_rows := by
  unfold TextExtractor.group_text_into_rows TextExtractor.organize_text_data
  rw [hb, ht]

/-- A successful grouping exposes the successful pipeline stages. -/
lemma group_ok_pipeline (self : TextExtractor) (rows : List (List String))
    (h : self.group_text_into_rows = .ok rows) :
    ∃ raw measured, self.organize_text_data = .ok raw ∧
      withAverages raw = .ok measured ∧ measuredOf self = measured := by
  unfold TextExtractor.group_text_into_rows at h
  cases horg : self.organize_text_data with
  | error e => rw [horg] at h; exact absurd h (by simp)
  | ok raw =>
    rw [horg] at h
    dsimp only at h
    cases havg : withAverages raw with
    | error e => rw [havg] at h; exact absurd h (by simp)
    | ok measured =>
      refine ⟨raw, measured, rfl, havg, ?_⟩
      unfold measuredOf
      rw [horg]
      dsimp only
      rw [havg]

/-- Full symbolic run of `group_text_into_rows` on two single-point-quad
items `"A"` at `(0, y1)` and `"B"` at `(1, y2)` with `y1 ≤ y2`: one row
when the centroids are strictly closer than the threshold, two rows
otherwise. -/
lemma group_pairState (y1 y2 : ℚ) (h12 : y1 ≤ y2) :
    (pairState y1 y2).group_text_into_rows =
      if y2 - y1 < 10 then .ok [["A", "B"]] else .ok [["A"], ["B"]] := by
  have havg : withAverages [⟨ptQuad 0 y1, "A"⟩, ⟨ptQuad 1 y2, "B"⟩] =
      .ok [⟨ptQuad 0 y1, "A", y1, 0⟩, ⟨ptQuad 1 y2, "B", y2, 1⟩] := by
    simp only [withAverages, ptQuad]
    norm_num
    constructor <;> ring
  have horg : (pairState y1 y2).organize_text_data =
      .ok [⟨ptQuad 0 y1, "A"⟩, ⟨ptQuad 1 y2, "B"⟩] := by
    simp [TextExtractor.organize_text_data, pairState]
  unfold TextExtractor.group_text_into_rows
  rw [horg]
  dsimp only
  rw [havg]
  dsimp only
  have hsort : sortedByY [⟨ptQuad 0 y1, "A", y1, 0⟩,
        ⟨ptQuad 1 y2, "B", y2, 1⟩] =
      [⟨ptQuad 0 y1, "A", y1, 0⟩, ⟨ptQuad 1 y2, "B", y2, 1⟩] := by
    simp [sortedByY, h12]
  rw [hsort]
  simp only [List.head?_cons]
  by_cases hc : y2 - y1 < 10
  · norm_num [scanStep, rowThreshold, abs_sub_lt_iff, emitRow, sortRowX, hc,
      show y1 - y2 < 10 by linarith]
  · norm_num [scanStep, rowThreshold, abs_sub_lt_iff, emitRow, sortRowX, hc]

/-! ### Frame lemmas for the OCR-side image drawing -/

lemma draw_bounding_box_fields (self : TextExtractor)
    (bbox : List (ℚ × ℚ)) :
    (self.draw_bounding_box bbox).bounding_boxes = self.bounding_boxes ∧
      (self.draw_bounding_box bbox).detected_texts = self.detected_texts ∧
      (self.draw_bounding_box bbox).confidence_scores =
        self.confidence_scores :=
  ⟨rfl, rfl, rfl⟩

lemma foldl_draw_fields (boxes : List (List (ℚ × ℚ))) :
    ∀ s : TextExtractor,
      ((boxes.foldl (fun t b => t.draw_bounding_box b) s).bounding_boxes =
          s.bounding_boxes ∧
        (boxes.foldl (fun t b => t.draw_bounding_box b) s).detected_texts =
          s.detected_texts ∧
        (boxes.foldl (fun t b => t.draw_bounding_box b) s).confidence_scores =
          s.confidence_scores) := by
  induction boxes with
  | nil => intro s; exact ⟨rfl, rfl, rfl⟩
  | cons b rest ih =>
    intro s
    simpa using ih (s.draw_bounding_box b)

/-! ### State-splitting lemmas for the table-side pipeline -/

lemma processBox_split (d : List CroppedImage) (i : TableImage)
    (box : ℚ × ℚ × ℚ × ℚ) :
    TableExtractor.processBox ⟨d, i⟩ box =
      ⟨d ++ (TableExtractor.processBox ⟨[], i⟩ box).detected_tables,
       (TableExtractor.processBox ⟨[], i⟩ box).source_image⟩ := by
  simp [TableExtractor.processBox]

lemma boxesFold_split (boxes : List (ℚ × ℚ × ℚ × ℚ)) :
    ∀ (d : List CroppedImage) (i : TableImage),
      boxes.foldl TableExtractor.processBox ⟨d, i⟩ =
        ⟨d ++ (boxes.foldl TableExtractor.processBox ⟨[], i⟩).detected_tables,
         (boxes.foldl TableExtractor.processBox ⟨[], i⟩).source_image⟩ := by
  induction boxes with
  | nil => intro d i; simp
  | cons b rest ih =>
    intro d i
    simp only [List.foldl_cons]
    rw [processBox_split d i b,
      ih (d ++ (TableExtractor.processBox ⟨[], i⟩ b).detected_tables)
        (TableExtractor.processBox ⟨[], i⟩ b).source_image]
    have hbase := processBox_split [] i b
    rw [show TableExtractor.processBox ⟨[], i⟩ b =
        ⟨(TableExtractor.processBox ⟨[], i⟩ b).detected_tables,
         (TableExtractor.processBox ⟨[], i⟩ b).source_image⟩ from rfl,
      ih (TableExtractor.processBox ⟨[], i⟩ b).detected_tables
        (TableExtractor.processBox ⟨[], i⟩ b).source_image]
    simp

lemma annotate_image_split (dets : List Detection) :
    ∀ (d : List CroppedImage) (i : TableImage),
      TableExtractor.annotate_image ⟨d, i⟩ dets =
        ⟨d ++ (TableExtractor.annotate_image ⟨[], i⟩ dets).detected_tables,
         (TableExtractor.annotate_image ⟨[], i⟩ dets).source_image⟩ := by
  induction dets with
  | nil => intro d i; simp [TableExtractor.annotate_image]
  | cons det rest ih =>
    intro d i
    simp only [TableExtractor.annotate_image, List.foldl_cons]
    rw [boxesFold_split det.boxes d i]
    have h1 := ih (d ++ (det.boxes.foldl TableExtractor.processBox
        ⟨[], i⟩).detected_tables)
      (det.boxes.foldl TableExtractor.processBox ⟨[], i⟩).source_image
    have h2 := ih (det.boxes.foldl TableExtractor.processBox
        ⟨[], i⟩).detected_tables
      (det.boxes.foldl TableExtractor.processBox ⟨[], i⟩).source_image
    simp only [TableExtractor.annotate_image] at h1 h2
    rw [h1]
    rw [show det.boxes.foldl TableExtractor.processBox ⟨[], i⟩ =
        ⟨(det.boxes.foldl TableExtractor.processBox ⟨[], i⟩).detected_tables,
         (det.boxes.foldl TableExtractor.processBox ⟨[], i⟩).source_image⟩
      from rfl, h2]
    simp

/-- Closed form of `execute`: on a missing file it raises; otherwise it
returns the previously accumulated crops followed by the crops of the
image at the path, and the previous state influences nothing else. -/
lemma execute_split (env : DetectorEnv) (p : String) (s : TableExtractor) :
    s.execute env p =
      if env.isfile p = false then .error (.fileNotFound p)
      else
        .ok (s.detected_tables ++
            (TableExtractor.annotate_image ⟨[], env.imread p⟩
              (env.predict (env.imread p))).detected_tables,
          ⟨s.detected_tables ++
            (TableExtractor.annotate_image ⟨[], env.imread p⟩
              (env.predict (env.imread p))).detected_tables,
           (TableExtractor.annotate_image ⟨[], env.imread p⟩
              (env.predict (env.imread p))).source_image⟩) := by
  unfold TableExtractor.execute TableExtractor.load_and_predict
  by_cases hf : env.isfile p = false
  · rw [if_pos hf, if_pos hf]
  · rw [if_neg hf, if_neg hf]
    dsimp only
    rw [show ({ s with source_image := env.imread p } : TableExtractor) =
        ⟨s.detected_tables, env.imread p⟩ from rfl,
      annotate_image_split (env.predict (env.imread p)) s.detected_tables
        (env.imread p)]

/-! ### The claims -/

/-- **C1.** The claim says `group_text_into_rows` on an empty input
returns an empty row list without error.  The code instead raises
`IndexError` when it reads `ocr_results[0]['avg_y']` (line 124) on the
empty list: this theorem evaluates the embedded code at the failing
input. -/
theorem claim1_empty_input_raises :
    emptyExtractor.group_text_into_rows = .error .indexError := by
  simp [TextExtractor.group_text_into_rows, TextExtractor.organize_text_data,
    withAverages, sortedByY, emptyExtractor]

/-- **C3.** The rows returned by `group_text_into_rows` are the clusters
of the scan in order, and the cluster anchors — the `avg_y` of the first
item assigned to each row in scan order — are non-decreasing from row to
row. -/
theorem claim3_rows_ordered_by_anchor (self : TextExtractor)
    (rows : List (List String))
    (h : self.group_text_into_rows = .ok rows) :
    rows = (theClusters self).map emitRow ∧
      List.Chain' (· ≤ ·) ((theClusters self).map anchorY) :=
  ⟨group_ok_eq_theClusters self rows h, theClusters_anchor_chain self⟩

/-- Witness for **C3** at a concrete input: items at `y = 0` and
`y = 50` produce two rows whose anchors are ordered. -/
theorem claim3_rows_ordered_by_anchor_witness :
    [["A"], ["B"]] = (theClusters (pairState 0 50)).map emitRow ∧
      List.Chain' (· ≤ ·) ((theClusters (pairState 0 50)).map anchorY) :=
  claim3_rows_ordered_by_anchor (pairState 0 50) [["A"], ["B"]]
    (by rw [group_pairState 0 50 (by norm_num)]; norm_num)

/-- **C4.** Within every returned row the cells are ordered
left-to-right: every row is a cluster sorted by `avg_x` and projected to
its texts, and the `avg_x` values of the sorted cluster are
non-decreasing. -/
theorem claim4_cells_ordered_by_x (self : TextExtractor)
    (rows : List (List String))
    (h : self.group_text_into_rows = .ok rows) :
    rows = (theClusters self).map emitRow ∧
      ∀ c ∈ theClusters self,
        List.Chain' (· ≤ ·) ((sortRowX c).map MeasuredItem.avg_x) := by
  refine ⟨group_ok_eq_theClusters self rows h, fun c _ => ?_⟩
  exact (List.pairwise_map.mpr (sortRowX_pairwise c)).chain'

/-- Witness for **C4** at Scenario C of the spec: three items on one
row with x-centroids 30, 10, 20 come out as one row ordered
`["a", "b", "c"]` (x = 10, 20, 30). -/
theorem claim4_cells_ordered_by_x_witness :
    [["a", "b", "c"]] = (theClusters scenarioCState).map emitRow ∧
      ∀ c ∈ theClusters scenarioCState,
        List.Chain' (· ≤ ·) ((sortRowX c).map MeasuredItem.avg_x) :=
  claim4_cells_ordered_by_x scenarioCState [["a", "b", "c"]]
    (by
      simp [TextExtractor.group_text_into_rows,
        TextExtractor.organize_text_data, withAverages, sortedByY,
        scenarioCState, ptQuad]
      norm_num [scanStep, rowThreshold, abs_sub_lt_iff, emitRow, sortRowX]
      simp)

/-- **C7.** The reconstruction is deterministic in its data: two states
with the same bounding boxes, texts and confidences (the source image
may differ) produce identical `group_text_into_rows` output. -/
theorem claim7_deterministic (s1 s2 : TextExtractor)
    (hb : s1.bounding_boxes = s2.bounding_boxes)
    (ht : s1.detected_texts = s2.detected_texts)
    (hc : s1.confidence_scores = s2.confidence_scores) :
    s1.group_text_into_rows = s2.group_text_into_rows :=
  group_text_into_rows_congr s1 s2 hb ht

/-- Witness for **C7**: the same data with two different source images
yields the same grouping. -/
theorem claim7_deterministic_witness :
    TextExtractor.group_text_into_rows
        ⟨[ptQuad 30 0, ptQuad 10 1, ptQuad 20 2], ["c", "a", "b"],
         [1, 1, 1], ⟨7, [((0, 0), (1, 1), (0, 255, 0), 2)]⟩⟩ =
      scenarioCState.group_text_into_rows :=
  claim7_deterministic _ scenarioCState rfl rfl rfl

/-- **C8.** Annotation does not mutate the data used by reconstruction:
after `annotate_image` (which draws the integer-cast boxes on the source
image), `bounding_boxes`, `detected_texts` and `confidence_scores` are
unchanged, and `group_text_into_rows` returns the same result. -/
theorem claim8_annotate_preserves_grouping (self : TextExtractor) :
    (self.annotate_image).bounding_boxes = self.bounding_boxes ∧
      (self.annotate_image).detected_texts = self.detected_texts ∧
      (self.annotate_image).confidence_scores = self.confidence_scores ∧
      (self.annotate_image).group_text_into_rows =
        self.group_text_into_rows := by
  have h := foldl_draw_fields self.bounding_boxes self
  refine ⟨h.1, h.2.1, h.2.2, ?_⟩
  exact group_text_into_rows_congr _ _ h.1 h.2.1

/-- **C2.** Completeness: for a well-formed non-empty input, the total
number of cells across the returned rows equals the number of input
items, and the multiset of emitted texts is exactly the multiset of
input texts (every input item's text appears in exactly one row exactly
once). -/
theorem claim2_completeness (self : TextExtractor)
    (rows : List (List String))
    (hlen : self.detected_texts.length = self.bounding_boxes.length)
    (hne : self.bounding_boxes ≠ [])
    (h : self.group_text_into_rows = .ok rows) :
    (rows.map List.length).sum = self.bounding_boxes.length ∧
      rows.flatten.Perm self.detected_texts := by
  obtain ⟨raw, measured, horg, havg, hmeas⟩ := group_ok_pipeline self rows h
  have hrows := group_ok_eq_theClusters self rows h
  have hraw : raw = (self.bounding_boxes.zip self.detected_texts).map
      (fun p => ⟨p.1, p.2⟩) := ((organize_ok_iff self raw).mp horg).2
  have hrawtexts : raw.map RawItem.text = self.detected_texts := by
    rw [hraw, List.map_map]
    exact List.map_snd_zip _ _ (le_of_eq hlen)
  have htexts : (measuredOf self).map MeasuredItem.text =
      self.detected_texts := by
    rw [hmeas, withAverages_ok_texts raw measured havg, hrawtexts]
  have hperm : rows.flatten.Perm self.detected_texts := by
    rw [hrows]
    refine (flatten_map_emitRow_perm _).trans ?_
    rw [← List.map_flatten, theClusters_flatten]
    unfold sortedOf sortedByY
    rw [← htexts]
    exact (List.perm_insertionSort _ _).map _
  refine ⟨?_, hperm⟩
  rw [← List.length_flatten, hperm.length_eq, hlen]

/-- Witness for **C2** at Scenario C: three items in, three cells out,
texts preserved. -/
theorem claim2_completeness_witness :
    (([["a", "b", "c"]] : List (List String)).map List.length).sum =
        scenarioCState.bounding_boxes.length ∧
      ([["a", "b", "c"]] : List (List String)).flatten.Perm
        scenarioCState.detected_texts :=
  claim2_completeness scenarioCState [["a", "b", "c"]]
    (by simp [scenarioCState]) (by simp [scenarioCState])
    (by
      simp [TextExtractor.group_text_into_rows,
        TextExtractor.organize_text_data, withAverages, sortedByY,
        scenarioCState, ptQuad]
      norm_num [scanStep, rowThreshold, abs_sub_lt_iff, emitRow, sortRowX]
      simp)

/-- **C5.** The scan step appends an item strictly closer than the
threshold to the current row without touching the anchor, and otherwise
closes the row and re-anchors at the item; consequently two items whose
`centroid_y` differ by `10 - ε` share a row and by `10 + ε` split into
two rows. -/
theorem claim5_threshold_behavior :
    (∀ (acc : List (List String) × List MeasuredItem × ℚ)
        (item : MeasuredItem),
        (|item.avg_y - acc.2.2| < rowThreshold →
          scanStep acc item = (acc.1, acc.2.1 ++ [item], acc.2.2)) ∧
        (¬ |item.avg_y - acc.2.2| < rowThreshold →
          scanStep acc item =
            (acc.1 ++ [emitRow acc.2.1], [item], item.avg_y))) ∧
      (∀ ε : ℚ, 0 < ε → ε ≤ 10 →
        (pairState 0 (10 - ε)).group_text_into_rows = .ok [["A", "B"]]) ∧
      (∀ ε : ℚ, 0 < ε →
        (pairState 0 (10 + ε)).group_text_into_rows =
          .ok [["A"], ["B"]]) := by
  refine ⟨fun acc item => ⟨fun h => ?_, fun h => ?_⟩, fun ε h1 h2 => ?_,
    fun ε h1 => ?_⟩
  · simp [scanStep, h]
  · simp [scanStep, h]
  · rw [group_pairState 0 (10 - ε) (by linarith), if_pos (by linarith)]
  · rw [group_pairState 0 (10 + ε) (by linarith), if_neg (by linarith)]

/-- Witness for **C5**: at `ε = 1/2` the pair at distance `19/2` shares
one row and the pair at distance `21/2` splits, and a concrete in-range
scan step appends without moving the anchor. -/
theorem claim5_threshold_behavior_witness :
    (pairState 0 (19 / 2)).group_text_into_rows = .ok [["A", "B"]] ∧
      (pairState 0 (21 / 2)).group_text_into_rows = .ok [["A"], ["B"]] ∧
      scanStep ([], [], 0) ⟨ptQuad 0 3, "A", 3, 0⟩ =
        ([], [⟨ptQuad 0 3, "A", 3, 0⟩], 0) := by
  have h1 := claim5_threshold_behavior.2.1 (1 / 2) (by norm_num) (by norm_num)
  have h2 := claim5_threshold_behavior.2.2 (1 / 2) (by norm_num)
  have h3 := (claim5_threshold_behavior.1 ([], [], 0)
    ⟨ptQuad 0 3, "A", 3, 0⟩).1 (by norm_num [rowThreshold])
  norm_num at h1 h2
  exact ⟨h1, h2, h3⟩

/-- **C10.** Two items whose `centroid_y` differ by exactly the
threshold (10) land in different rows, because the comparison is a
strict `<`. -/
theorem claim10_exact_threshold_splits (y : ℚ) :
    (pairState y (y + 10)).group_text_into_rows = .ok [["A"], ["B"]] := by
  rw [group_pairState y (y + 10) (by linarith), if_neg (by linarith)]

/-- **C6 (counterexample).** The claim says a 3-point quadrilateral makes
reconstruction fail with a validation error.  It does not: the code
silently averages the three points and returns a normal result. -/
theorem claim6_counterexample :
    threePointState.group_text_into_rows = .ok [["X"]] := by
  simp [TextExtractor.group_text_into_rows, TextExtractor.organize_text_data,
    withAverages, sortedByY, threePointState]
  norm_num [scanStep, rowThreshold, abs_sub_lt_iff, emitRow, sortRowX]

/-- **C6 (amended).** No quadrilateral-shape validation exists: whenever
every coordinate list is non-empty (3-point quadrilaterals included) and
the input is otherwise well formed and non-empty, grouping succeeds,
silently averaging however many points each item has. -/
theorem claim6_no_shape_validation (self : TextExtractor)
    (hlen : self.detected_texts.length = self.bounding_boxes.length)
    (hne : self.bounding_boxes ≠ [])
    (hcoords : ∀ q ∈ self.bounding_boxes, q ≠ []) :
    ∃ rows, self.group_text_into_rows = .ok rows := by
  have horg : self.organize_text_data = .ok
      ((self.bounding_boxes.zip self.detected_texts).map
        (fun p => ⟨p.1, p.2⟩)) :=
    (organize_ok_iff self _).mpr ⟨by omega, rfl⟩
  have hrawne : ∀ it ∈ (self.bounding_boxes.zip self.detected_texts).map
      (fun p => (⟨p.1, p.2⟩ : RawItem)), it.coordinates ≠ [] := by
    intro it hit
    obtain ⟨p, hp, hpe⟩ := List.mem_map.mp hit
    have := (List.of_mem_zip hp).1
    rw [← hpe]
    exact hcoords p.1 this
  obtain ⟨m, hm⟩ := withAverages_ok_of_ne_nil _ hrawne
  have hmne : m ≠ [] := by
    intro hnil
    have hlm := congrArg List.length (withAverages_ok_texts _ m hm)
    rw [hnil] at hlm
    simp only [List.map_nil, List.length_nil, List.length_map,
      List.length_zip, hlen, min_self] at hlm
    exact hne (List.length_eq_zero.mp hlm.symm)
  unfold TextExtractor.group_text_into_rows
  rw [horg]
  dsimp only
  rw [hm]
  dsimp only
  cases hhead : (sortedByY m).head? with
  | none =>
    exfalso
    have : sortedByY m = [] := by
      cases hx : sortedByY m with
      | nil => rfl
      | cons z zs => rw [hx] at hhead; simp at hhead
    have hlen0 := (List.perm_insertionSort
      (fun a b : MeasuredItem => a.avg_y ≤ b.avg_y) m).length_eq
    rw [show sortedByY m = List.insertionSort
        (fun a b : MeasuredItem => a.avg_y ≤ b.avg_y) m from rfl] at this
    rw [this] at hlen0
    simp at hlen0
    exact hmne (List.length_eq_zero.mp hlen0.symm)
  | some first =>
    dsimp only
    by_cases hfin : ((sortedByY m).foldl scanStep
        ([], [], first.avg_y)).2.1.isEmpty
    · rw [if_pos hfin]; exact ⟨_, rfl⟩
    · rw [if_neg hfin]; exact ⟨_, rfl⟩

/-- Witness for **C6 (amended)**, at exactly the claim's scenario: an
input containing a 3-point quadrilateral goes through without any
validation error. -/
theorem claim6_no_shape_validation_witness :
    ∃ rows, threePointState.group_text_into_rows = .ok rows :=
  claim6_no_shape_validation threePointState (by simp [threePointState])
    (by simp [threePointState]) (by simp [threePointState])

/-- **C9.** `detected_tables` accumulates across `execute` calls inside
the instance; `reset()` empties it; and an `execute` after `reset`
returns exactly the crops of the newly processed image, independent of
any earlier calls: running after a reset of any two histories gives
identical results, and a non-reset run returns the stale crops followed
by exactly the fresh ones. -/
theorem claim9_reset_isolation (env : DetectorEnv) (p : String)
    (s s' : TableExtractor) :
    (s.reset).detected_tables = [] ∧
      (s.reset).execute env p = (s'.reset).execute env p ∧
      ∀ t₁ st₁ t₂ st₂, s.execute env p = .ok (t₁, st₁) →
        (s.reset).execute env p = .ok (t₂, st₂) →
        t₁ = s.detected_tables ++ t₂ := by
  refine ⟨rfl, ?_, ?_⟩
  · rw [execute_split, execute_split]
    simp [TableExtractor.reset]
  · intro t₁ st₁ t₂ st₂ h1 h2
    rw [execute_split] at h1 h2
    by_cases hf : env.isfile p = false
    · rw [if_pos hf] at h1
      exact absurd h1 (by simp)
    · rw [if_neg hf] at h1 h2
      simp only [Except.ok.injEq, Prod.mk.injEq] at h1 h2
      rw [← h1.1, ← h2.1]
      simp [TableExtractor.reset]

/-- Witness for **C9**: with one stale crop in the instance, a plain
`execute` returns stale-plus-fresh while the post-`reset` run returns
only the fresh crop. -/
theorem claim9_reset_isolation_witness :
    [(⟨⟨3, []⟩, 0, 1, 0, 1⟩ : CroppedImage),
     ⟨⟨0, [((0, 0), (5, 5), (0, 255, 0), 2)]⟩, 0, 5, 0, 5⟩] =
      tableS.detected_tables ++
        [⟨⟨0, [((0, 0), (5, 5), (0, 255, 0), 2)]⟩, 0, 5, 0, 5⟩] :=
  (claim9_reset_isolation envA "t.png" tableS tableT).2.2
    [⟨⟨3, []⟩, 0, 1, 0, 1⟩,
     ⟨⟨0, [((0, 0), (5, 5), (0, 255, 0), 2)]⟩, 0, 5, 0, 5⟩]
    ⟨[⟨⟨3, []⟩, 0, 1, 0, 1⟩,
      ⟨⟨0, [((0, 0), (5, 5), (0, 255, 0), 2)]⟩, 0, 5, 0, 5⟩],
     ⟨0, [((0, 0), (5, 5), (0, 255, 0), 2)]⟩⟩
    [⟨⟨0, [((0, 0), (5, 5), (0, 255, 0), 2)]⟩, 0, 5, 0, 5⟩]
    ⟨[⟨⟨0, [((0, 0), (5, 5), (0, 255, 0), 2)]⟩, 0, 5, 0, 5⟩],
     ⟨0, [((0, 0), (5, 5), (0, 255, 0), 2)]⟩⟩
    rfl rfl
